import Mathlib

/-!
Verification development for the platform-torrent-search repository.

Shallow embedding of the identifier and link codec (src/js/utils.js) and of
the paginated query engine (src/js/browse-ui.js, configuration from
js/browse-config.js).  Byte arrays (Uint8Array) are modelled as List Nat with
entries below 256; machine arithmetic in the source stays far below 2^31, so
Nat arithmetic with explicit % 256 and % 58 at the masking points is exact.
JavaScript functions that can throw are modelled with Option or Except.
-/

namespace TorrentSearch

/-! ### Base-58 codec (src/js/utils.js lines 35-95) -/

/-- The Bitcoin-style base-58 alphabet from utils.js line 6. -/
def BASE58_ALPHABET : List Char :=
  "123456789ABCDEFGHJKLMNPQRSTUVWXYZabcdefghijkmnopqrstuvwxyz".data

/-- One iteration of the JS while-loop pushing remaining carry digits in the
given base.  The source loops while carry is positive; the carry strictly
shrinks each round, so using the initial carry as fuel is exact. -/
def carryDigits (base : Nat) : Nat → Nat → List Nat
  | 0, _ => []
  | fuel + 1, carry =>
    if carry = 0 then []
    else (carry % base) :: carryDigits base fuel (carry / base)

/-- The shared inner loop of base58Decode and base58Encode: multiply the
little-endian digit list (digits below base) by mult and add the start carry,
exactly as the for/while pair in the source. -/
def mulCarry (mult base : Nat) : List Nat → Nat → List Nat
  | [], carry => carryDigits base carry carry
  | d :: rest, carry =>
    ((d * mult + carry) % base) :: mulCarry mult base rest ((d * mult + carry) / base)

/-- base58Decode from utils.js lines 35-60.  An input character outside the
alphabet throws in the source, modelled as none. -/
def base58Decode (str : String) : Option (List Nat) := do
  let bytes ← str.data.foldlM (fun bytes c => do
    let idx ← BASE58_ALPHABET.findIdx? (fun a => a == c)
    pure (mulCarry 58 256 bytes idx)) []
  let zeros := (str.data.takeWhile (fun c => c == '1')).length
  pure ((bytes ++ List.replicate zeros 0).reverse)

/-- Character for a base-58 digit (digit values stay below 58). -/
def b58Char (n : Nat) : Char := BASE58_ALPHABET.getD n ' '

/-- base58Encode from utils.js lines 67-95.  Note the source initialises the
digit accumulator to the single digit zero. -/
def base58Encode (bytes : List Nat) : String :=
  let digits := bytes.foldl (fun digits byte => mulCarry 256 58 digits byte) [0]
  let ones := List.replicate (bytes.takeWhile (fun b => b == 0)).length '1'
  String.mk (ones ++ digits.reverse.map b58Char)

/-! ### JavaScript parseInt (used by hexToBytes, parseImdbId, parseWorkId) -/

/-- JavaScript string whitespace accepted by parseInt before the number. -/
def isJsWhitespace (c : Char) : Bool :=
  c == ' ' || c == '\t' || c == '\n' || c == '\r' || c == '\x0b' || c == '\x0c'

/-- Digit value of a character, hexadecimal when sixteen is set. -/
def digitVal? (sixteen : Bool) (c : Char) : Option Nat :=
  if '0' ≤ c ∧ c ≤ '9' then some (c.toNat - '0'.toNat)
  else if sixteen ∧ 'a' ≤ c ∧ c ≤ 'f' then some (c.toNat - 'a'.toNat + 10)
  else if sixteen ∧ 'A' ≤ c ∧ c ≤ 'F' then some (c.toNat - 'A'.toNat + 10)
  else none

/-- Longest prefix of digits valid in the selected radix. -/
def digitsPrefix (sixteen : Bool) : List Char → List Nat
  | [] => []
  | c :: rest =>
    match digitVal? sixteen c with
    | some v => v :: digitsPrefix sixteen rest
    | none => []

/-- Value of a digit list read most-significant first. -/
def digitsToNat (base : Nat) (ds : List Nat) : Nat :=
  ds.foldl (fun acc d => acc * base + d) 0

/-- ECMAScript parseInt with radix 16 (sixteen true) or radix 10: skip leading
whitespace, optional sign, an optional 0x prefix in radix 16, then the longest
valid digit prefix; none models the NaN result. -/
def parseIntJS (sixteen : Bool) (cs : List Char) : Option Int :=
  let cs1 := cs.dropWhile isJsWhitespace
  let signed : Bool × List Char :=
    match cs1 with
    | '-' :: rest => (true, rest)
    | '+' :: rest => (false, rest)
    | rest => (false, rest)
  let cs2 :=
    if sixteen then
      match signed.2 with
      | '0' :: x :: rest => if x == 'x' || x == 'X' then rest else '0' :: x :: rest
      | other => other
    else signed.2
  let ds := digitsPrefix sixteen cs2
  if ds.isEmpty then none
  else
    let v : Int := Int.ofNat (digitsToNat (if sixteen then 16 else 10) ds)
    some (if signed.1 then -v else v)

/-! ### Fixed-length hex conversions (utils.js lines 227-252) -/

/-- Lowercase hexadecimal digit character, as produced by toString(16). -/
def hexDigitChar (n : Nat) : Char :=
  if n < 10 then Char.ofNat ('0'.toNat + n) else Char.ofNat ('a'.toNat + (n - 10))

/-- Two-character lowercase hex rendering of one byte, as
b.toString(16).padStart(2, zero) for b below 256. -/
def byteToHexChars (b : Nat) : List Char := [hexDigitChar (b / 16), hexDigitChar (b % 16)]

/-- bytesToHex from utils.js lines 244-252: rejects anything that is not
exactly 20 bytes, then renders each byte as two lowercase hex characters. -/
def bytesToHex (bytes : List Nat) : Except String String :=
  if bytes.length ≠ 20 then .error "Invalid bytes array: must be 20 bytes"
  else .ok (String.mk (bytes.map byteToHexChars).flatten)

/-- Storing a parseInt result into a Uint8Array cell: NaN becomes 0, an
integer is reduced modulo 256 into the byte range. -/
def toUint8 : Option Int → Nat
  | none => 0
  | some v => (v % 256).toNat

/-- The loop of hexToBytes: consume the character list two at a time, each
pair going through parseInt with radix 16 and the Uint8Array store. -/
def hexPairsToBytes : List Char → List Nat
  | c1 :: c2 :: rest => toUint8 (parseIntJS true [c1, c2]) :: hexPairsToBytes rest
  | _ => []

/-- hexToBytes from utils.js lines 227-237: rejects any input whose length is
not 40 (the falsiness test on the argument adds no further string case), then
converts the 20 pairs without validating the character set. -/
def hexToBytes (hex : String) : Except String (List Nat) :=
  if hex.length ≠ 40 then .error "Invalid hex string: must be 40 characters"
  else .ok (hexPairsToBytes hex.data)

/-! ### Typed identifiers (utils.js lines 259-357) -/

/-- The anchored case-insensitive pattern tt followed by one to ten digits;
returns the digit characters of the capture group. -/
def ttMatch? (cs : List Char) : Option (List Char) :=
  match cs with
  | t1 :: t2 :: rest =>
    if (t1 == 't' || t1 == 'T') && (t2 == 't' || t2 == 'T') &&
        !rest.isEmpty && rest.length ≤ 10 && rest.all Char.isDigit
    then some rest else none
  | _ => none

/-- Decimal value of a list of digit characters. -/
def digitsValue (ds : List Char) : Nat :=
  digitsToNat 10 (ds.map fun c => c.toNat - '0'.toNat)

/-- parseImdbId from utils.js lines 259-279 on string input: empty input is
falsy, the tt-regex branch parses the captured digits, otherwise the plain
parseInt fallback is range-checked into [0, 9999999999]. -/
def parseImdbId (s : String) : Option Int :=
  if s = "" then none
  else
    match ttMatch? s.data with
    | some ds => some (Int.ofNat (digitsValue ds))
    | none =>
      match parseIntJS false s.data with
      | some n => if 0 ≤ n ∧ n ≤ 9999999999 then some n else none
      | none => none

/-- The anchored case-insensitive pattern OL digits W, one to ten digits. -/
def olMatch? (cs : List Char) : Option (List Char) :=
  match cs with
  | o :: l :: rest =>
    if (o == 'O' || o == 'o') && (l == 'L' || l == 'l') then
      match rest.reverse with
      | w :: dsRev =>
        if (w == 'W' || w == 'w') && !dsRev.isEmpty && dsRev.length ≤ 10 &&
            dsRev.all Char.isDigit
        then some dsRev.reverse else none
      | [] => none
    else none
  | _ => none

/-- parseWorkId from utils.js lines 311-332 on string input. -/
def parseWorkId (s : String) : Option Int :=
  if s = "" then none
  else
    match olMatch? s.data with
    | some ds => some (Int.ofNat (digitsValue ds))
    | none =>
      match parseIntJS false s.data with
      | some n => if 0 ≤ n ∧ n ≤ 9999999999 then some n else none
      | none => none

/-! ### Percent encoding and decoding (ECMAScript encodeURIComponent and
decodeURIComponent, the builtins used by the magnet functions) -/

/-- UTF-8 bytes of a code point (Lean characters are valid scalar values). -/
def utf8EncodeNat (n : Nat) : List Nat :=
  if n < 0x80 then [n]
  else if n < 0x800 then [0xC0 + n / 64, 0x80 + n % 64]
  else if n < 0x10000 then [0xE0 + n / 4096, 0x80 + n / 64 % 64, 0x80 + n % 64]
  else [0xF0 + n / 262144, 0x80 + n / 4096 % 64, 0x80 + n / 64 % 64, 0x80 + n % 64]

/-- UTF-8 continuation byte test. -/
def isCont (b : Nat) : Bool := 0x80 ≤ b && b < 0xC0

/-- Strict UTF-8 decoding to code points: rejects truncated or overlong
sequences, surrogates and out-of-range values, exactly the cases where the
ECMAScript Decode algorithm throws URIError. -/
def utf8Decode : List Nat → Option (List Nat)
  | [] => some []
  | b :: rest =>
    if b < 0x80 then (utf8Decode rest).map (b :: ·)
    else if b < 0xC2 then none
    else if b < 0xE0 then
      match rest with
      | c1 :: rest2 =>
        if isCont c1 then (utf8Decode rest2).map (((b - 0xC0) * 64 + (c1 - 0x80)) :: ·)
        else none
      | [] => none
    else if b < 0xF0 then
      match rest with
      | c1 :: c2 :: rest3 =>
        let cp := (b - 0xE0) * 4096 + (c1 - 0x80) * 64 + (c2 - 0x80)
        if isCont c1 && isCont c2 && decide (0x800 ≤ cp) &&
            !(decide (0xD800 ≤ cp) && decide (cp ≤ 0xDFFF))
        then (utf8Decode rest3).map (cp :: ·) else none
      | _ => none
    else if b < 0xF5 then
      match rest with
      | c1 :: c2 :: c3 :: rest4 =>
        let cp := (b - 0xF0) * 262144 + (c1 - 0x80) * 4096 + (c2 - 0x80) * 64 + (c3 - 0x80)
        if isCont c1 && isCont c2 && isCont c3 && decide (0x10000 ≤ cp) &&
            decide (cp ≤ 0x10FFFF)
        then (utf8Decode rest4).map (cp :: ·) else none
      | _ => none
    else none

/-- Percent-decode to a byte sequence: a percent sign must be followed by two
hexadecimal digits, literal characters contribute their UTF-8 bytes. -/
def percentDecodeBytes : List Char → Option (List Nat)
  | [] => some []
  | '%' :: c1 :: c2 :: rest =>
    match digitVal? true c1, digitVal? true c2 with
    | some h, some l => (percentDecodeBytes rest).map ((h * 16 + l) :: ·)
    | _, _ => none
  | '%' :: _ => none
  | c :: rest => (percentDecodeBytes rest).map (utf8EncodeNat c.toNat ++ ·)

/-- decodeURIComponent: percent-decode then strict UTF-8 decode; none models
the thrown URIError. -/
def decodeURIComponent (s : String) : Option String := do
  let bytes ← percentDecodeBytes s.data
  let cps ← utf8Decode bytes
  pure (String.mk (cps.map Char.ofNat))

/-- Uppercase hexadecimal digit character, as toString(16).toUpperCase(). -/
def hexDigitCharUpper (n : Nat) : Char :=
  if n < 10 then Char.ofNat ('0'.toNat + n) else Char.ofNat ('A'.toNat + (n - 10))

/-- Characters encodeURIComponent leaves unescaped. -/
def uriUnreserved (c : Char) : Bool :=
  c.isAlphanum || c == '-' || c == '_' || c == '.' || c == '!' || c == '~' ||
    c == '*' || c == '\'' || c == '(' || c == ')'

/-- encodeURIComponent: unreserved characters pass through, everything else is
emitted as uppercase percent-escaped UTF-8 bytes. -/
def encodeURIComponent (s : String) : String :=
  String.mk (s.data.foldr (fun c acc =>
    if uriUnreserved c then c :: acc
    else (utf8EncodeNat c.toNat).foldr
      (fun b acc2 => '%' :: hexDigitCharUpper (b / 16) :: hexDigitCharUpper (b % 16) :: acc2)
      acc) [])

/-! ### Base-32 infohash conversion (utils.js lines 189-205) -/

/-- The RFC 4648 alphabet used by base32ToHex. -/
def base32Alphabet : List Char := "ABCDEFGHIJKLMNOPQRSTUVWXYZ234567".data

/-- Five bits of a symbol value, most significant first, as the padded binary
string built by the source. -/
def natToBits5 (v : Nat) : List Bool :=
  [v / 16 % 2 == 1, v / 8 % 2 == 1, v / 4 % 2 == 1, v / 2 % 2 == 1, v % 2 == 1]

/-- Bit string of the base-32 input: characters outside the alphabet (after
uppercasing) are skipped, as in the source loop. -/
def b32Bits : List Char → List Bool
  | [] => []
  | c :: rest =>
    match base32Alphabet.findIdx? (fun a => a == c.toUpper) with
    | some v => natToBits5 v ++ b32Bits rest
    | none => b32Bits rest

/-- Hex digits from whole four-bit groups; a trailing group shorter than four
bits is dropped, as the while condition i + 4 <= bits.length does. -/
def bits4ToHex : List Bool → List Char
  | b1 :: b2 :: b3 :: b4 :: rest =>
    hexDigitChar ((cond b1 8 0) + (cond b2 4 0) + (cond b3 2 0) + (cond b4 1 0)) ::
      bits4ToHex rest
  | _ => []

/-- base32ToHex from utils.js lines 189-205. -/
def base32ToHex (base32 : String) : String :=
  String.mk (bits4ToHex (b32Bits base32.data))

/-! ### Magnet link parsing (utils.js lines 145-182) -/

/-- Case-insensitive character comparison for the i-flagged regexes. -/
def lowerEq (a b : Char) : Bool := a.toLower == b.toLower

/-- Case-insensitive list prefix test. -/
def startsWithCI : List Char → List Char → Bool
  | [], _ => true
  | _ :: _, [] => false
  | p :: ps, c :: cs => lowerEq p c && startsWithCI ps cs

/-- Case-sensitive list prefix test. -/
def startsWithPlain : List Char → List Char → Bool
  | [], _ => true
  | _ :: _, [] => false
  | p :: ps, c :: cs => p == c && startsWithPlain ps cs

/-- The character class of the 40-character hex btih alternative. -/
def isHexChar (c : Char) : Bool :=
  c.isDigit || ('a' ≤ c && c ≤ 'f') || ('A' ≤ c && c ≤ 'F')

/-- The character class [A-Z2-7] under the i flag. -/
def isB32Char (c : Char) : Bool :=
  ('A' ≤ c && c ≤ 'Z') || ('a' ≤ c && c ≤ 'z') || ('2' ≤ c && c ≤ '7')

/-- The literal part of the btih regexes. -/
def btihTag : List Char := "urn:btih:".data

/-- Capture of exactly n class characters at the current position. -/
def tryCapture (p : Char → Bool) (n : Nat) (cs : List Char) : Option (List Char) :=
  let cap := cs.take n
  if cap.length = n && cap.all p then some cap else none

/-- Leftmost match of urn:btih: followed by n class characters, the String
match call for the two infohash regexes. -/
def findBtih (p : Char → Bool) (n : Nat) : List Char → Option (List Char)
  | [] => none
  | c :: rest =>
    (if startsWithCI btihTag (c :: rest) then
        tryCapture p n ((c :: rest).drop btihTag.length)
      else none) <|>
    findBtih p n rest

/-- Leftmost match of a question mark or ampersand, the given literal tag and a
nonempty capture of characters other than ampersand: the dn regex. -/
def findParamCapture (tag : List Char) : List Char → Option (List Char)
  | [] => none
  | c :: rest =>
    (if (c == '?' || c == '&') && startsWithPlain tag rest then
        let cap := (rest.drop tag.length).takeWhile (fun x => x != '&')
        if cap.isEmpty then none else some cap
      else none) <|>
    findParamCapture tag rest

/-- All matches of the global tr regex in document order; scanning resumes
right after each capture, as matchAll does.  Fuel bounds the scan and the
initial list length plus one is always enough. -/
def findAllTrAux : Nat → List Char → List (List Char)
  | 0, _ => []
  | _ + 1, [] => []
  | fuel + 1, c :: rest =>
    if (c == '?' || c == '&') && startsWithPlain "tr=".data rest then
      let cap := (rest.drop 3).takeWhile (fun x => x != '&')
      if cap.isEmpty then findAllTrAux fuel rest
      else cap :: findAllTrAux fuel ((rest.drop 3).drop cap.length)
    else findAllTrAux fuel rest

/-- Capture groups of every tr parameter in the input. -/
def findAllTr (cs : List Char) : List (List Char) :=
  findAllTrAux (cs.length + 1) cs

/-- The record returned by parseMagnetLink. -/
structure MagnetResult where
  infoHash : Option String
  displayName : Option String
  trackers : String
deriving DecidableEq, Repr

/-- The tracker list: each capture is percent-decoded, failures are skipped
individually, survivors are joined with newlines. -/
def collectTrackers (cs : List Char) : String :=
  String.intercalate "\n"
    ((findAllTr cs).filterMap (fun cap => decodeURIComponent (String.mk cap)))

/-- parseMagnetLink from utils.js lines 145-182.  A falsy or non-string input
yields the empty result; the infohash comes from the first 40-hex or 32-base32
btih group; the dn capture has plus signs turned into spaces and is then
percent-decoded WITHOUT a try/catch, so a failing dn decode propagates as a
thrown URIError, modelled by none; tr captures are decoded inside try/catch. -/
def parseMagnetLink (magnetUri : String) : Option MagnetResult :=
  if magnetUri = "" then some ⟨none, none, ""⟩
  else
    let cs := magnetUri.data
    let ih : Option String :=
      match findBtih isHexChar 40 cs with
      | some h => some (String.mk (h.map Char.toLower))
      | none => (findBtih isB32Char 32 cs).map (fun b32 => base32ToHex (String.mk b32))
    match findParamCapture "dn=".data cs with
    | some cap =>
      match decodeURIComponent (String.mk (cap.map fun c => if c = '+' then ' ' else c)) with
      | some d => some ⟨ih, some d, collectTrackers cs⟩
      | none => none
    | none => some ⟨ih, none, collectTrackers cs⟩

/-! ### Magnet building and validation (utils.js lines 212-220 and 386-412) -/

/-- Character-level string lowering (String.prototype.toLowerCase on the
ASCII data involved). -/
def toLowerStr (s : String) : String := String.mk (s.data.map Char.toLower)

/-- String.prototype.split with a one-character separator: empty parts are
kept and the empty input yields one empty part. -/
def splitOnChar (sep : Char) : List Char → List (List Char)
  | [] => [[]]
  | c :: rest =>
    if c = sep then [] :: splitOnChar sep rest
    else
      match splitOnChar sep rest with
      | h :: t => (c :: h) :: t
      | [] => [[c]]

/-- String.prototype.trim: strip whitespace from both ends. -/
def trimChars (cs : List Char) : List Char :=
  ((cs.dropWhile Char.isWhitespace).reverse.dropWhile Char.isWhitespace).reverse

/-- The infoHash argument of buildMagnetUri and isValidInfoHash: a Uint8Array,
a string, or any other JavaScript value. -/
inductive InfoHashArg
  | bytes (b : List Nat)
  | str (s : String)
  | other

/-- isValidInfoHash from utils.js lines 212-220. -/
def isValidInfoHash : InfoHashArg → Bool
  | .str s => s.length == 40 && s.data.all isHexChar
  | .bytes b => b.length == 20
  | .other => false

/-- The string assembly of buildMagnetUri: base magnet URI, an optional dn
parameter for a truthy display name, and one tr parameter per nonempty trimmed
line of the newline-separated trackers string. -/
def magnetAssemble (hashHex : String) (displayName : Option String) (trackers : String) : String :=
  let base := "magnet:?xt=urn:btih:" ++ hashHex
  let withDn :=
    match displayName with
    | some d => if d = "" then base else base ++ "&dn=" ++ encodeURIComponent d
    | none => base
  if trackers = "" then withDn
  else
    (((splitOnChar '\n' trackers.data).map (fun cs => String.mk (trimChars cs))).filter
        (fun t => t ≠ "")).foldl
      (fun acc t => acc ++ "&tr=" ++ encodeURIComponent t) withDn

/-- buildMagnetUri from utils.js lines 386-412: a Uint8Array goes through
bytesToHex (whose length error propagates), a string of ANY content is
lowercased and used as-is, anything else throws the type error. -/
def buildMagnetUri (infoHash : InfoHashArg) (displayName : Option String)
    (trackers : String) : Except String String :=
  match infoHash with
  | .bytes b => (bytesToHex b).map fun hashHex => magnetAssemble hashHex displayName trackers
  | .str s => .ok (magnetAssemble (toLowerStr s) displayName trackers)
  | .other => .error "Invalid infoHash type"

/-! ### Paginated query engine (src/js/browse-ui.js, configuration from
js/browse-config.js).  The module-level mutable variables of browse-ui.js form
the EngineState record; each navigation handler becomes a function from the
state and the outcome of the one store query it awaits to the new state plus
the issued query request.  DOM rendering, the settings modal and the SDK-ready
guard (which returns before querying and before touching state) are outside
the model. -/

/-- The five document collections (tabs). -/
inductive Tab
  | movie
  | tv
  | book
  | iso
  | other
deriving DecidableEq, Repr

/-- Per-tab search and index fields from TAB_CONFIG in browse-config.js. -/
structure TabCfg where
  searchField : String
  indexField : String

/-- TAB_CONFIG from browse-config.js. -/
def TAB_CONFIG : Tab → TabCfg
  | .movie => ⟨"imdbId", "imdbId"⟩
  | .tv => ⟨"seriesImdbId", "seriesImdbId"⟩
  | .book => ⟨"workId", "workId"⟩
  | .iso => ⟨"title", "title"⟩
  | .other => ⟨"title", "title"⟩

/-- CONFIG.pageSize from browse-config.js. -/
def pageSize : Nat := 12

/-- A fetched store record; only the identifier used as pagination cursor is
relevant to the engine (the source reads lastDoc.$id falling back to
lastDoc.id; both are collapsed into one id field here, with the empty string
standing for a falsy identifier). -/
structure Rec where
  id : String
deriving DecidableEq, Repr

/-- The filter operators the engine emits. -/
inductive FilterOp
  | eq
  | startsWith
deriving DecidableEq, Repr

/-- A filter value: numeric for identifier fields, string for title search. -/
inductive FilterVal
  | num (n : Int)
  | str (s : String)
deriving DecidableEq, Repr

/-- One where clause [field, operator, value]. -/
structure Filter where
  field : String
  op : FilterOp
  value : FilterVal
deriving DecidableEq, Repr

/-- The module-level state of browse-ui.js lines 11-17. -/
structure EngineState where
  activeTab : Tab
  currentPage : Nat
  pageHistory : List (Option String)
  currentCursor : Option String
  lastResults : List Rec
  isSearchMode : Bool
  searchQuery : String
deriving DecidableEq, Repr

/-- The initial state for a tab: page 1, no cursors, no filter. -/
def initState (t : Tab) : EngineState :=
  ⟨t, 1, [], none, [], false, ""⟩

/-- The query request assembled by loadCurrentTab and passed through
queryDocuments: fixed page size, ascending order on the index field, the
optional where clause, and startAfter when a truthy cursor exists past page
one. -/
structure QueryRequest where
  collection : Tab
  limit : Nat
  orderByField : String
  whereClause : Option Filter
  startAfter : Option String
deriving DecidableEq, Repr

/-- Outcome of the awaited store query: a record list or a thrown QueryError. -/
inductive QueryOutcome
  | ok (records : List Rec)
  | err
deriving DecidableEq, Repr

/-- JavaScript truthiness of a cursor value: null, undefined and the empty
string all collapse to none. -/
def truthy : Option String → Option String
  | some s => if s = "" then none else some s
  | none => none

/-- buildWhereClause from browse-ui.js lines 223-245. -/
def buildWhereClause (t : Tab) (query : String) : Option Filter :=
  let field := (TAB_CONFIG t).searchField
  if field = "imdbId" ∨ field = "seriesImdbId" then
    match parseImdbId query with
    | some n => some ⟨field, .eq, .num n⟩
    | none => none
  else if field = "workId" then
    match parseWorkId query with
    | some n => some ⟨field, .eq, .num n⟩
    | none => none
  else if field = "title" then
    some ⟨field, .startsWith, .str query⟩
  else none

/-- The options object built in loadCurrentTab (browse-ui.js lines 185-200),
including the where-clause dropping of a null filter in queryDocuments. -/
def queryRequestOf (s : EngineState) : QueryRequest :=
  { collection := s.activeTab
    limit := pageSize
    orderByField := (TAB_CONFIG s.activeTab).indexField
    whereClause :=
      if s.isSearchMode ∧ s.searchQuery ≠ "" then buildWhereClause s.activeTab s.searchQuery
      else none
    startAfter := if 1 < s.currentPage then truthy s.currentCursor else none }

/-- loadCurrentTab from browse-ui.js lines 176-218: issues one query; on
success lastResults is replaced, on a caught error the state is left as it
was when the query was issued. -/
def loadCurrentTab (s : EngineState) (o : QueryOutcome) : EngineState × QueryRequest :=
  (match o with
   | .ok records => { s with lastResults := records }
   | .err => s,
   queryRequestOf s)

/-- resetPagination from browse-ui.js lines 165-171. -/
def resetPagination (s : EngineState) : EngineState :=
  { s with currentPage := 1, pageHistory := [], currentCursor := none, lastResults := [] }

/-- switchTab from browse-ui.js lines 130-150 (state part): set the tab, reset
pagination and search, reload. -/
def switchTab (s : EngineState) (t : Tab) (o : QueryOutcome) : EngineState × QueryRequest :=
  loadCurrentTab { resetPagination { s with activeTab := t } with
                    isSearchMode := false, searchQuery := "" } o

/-- clearSearch from browse-ui.js lines 267-273 (state part). -/
def clearSearch (s : EngineState) (o : QueryOutcome) : EngineState × QueryRequest :=
  loadCurrentTab { resetPagination s with isSearchMode := false, searchQuery := "" } o

/-- handleSearch from browse-ui.js lines 250-262: the input is trimmed; an
empty query delegates to clearSearch, otherwise the filter is installed and
pagination reset before the reload. -/
def handleSearch (s : EngineState) (raw : String) (o : QueryOutcome) :
    EngineState × QueryRequest :=
  let query := String.mk (trimChars raw.data)
  if query = "" then clearSearch s o
  else loadCurrentTab (resetPagination { s with searchQuery := query, isSearchMode := true }) o

/-- loadNextPage from browse-ui.js lines 377-393: a short last page means no
further page and nothing happens; otherwise the current cursor is pushed, the
cursor advances to the identifier of the last fetched record, the page counter
increments and the tab reloads. -/
def loadNextPage (s : EngineState) (o : QueryOutcome) : EngineState × Option QueryRequest :=
  if s.lastResults.length < pageSize then (s, none)
  else
    let s1 := { s with pageHistory := s.pageHistory ++ [s.currentCursor] }
    let s2 :=
      match s1.lastResults.getLast? with
      | some lastDoc => { s1 with currentCursor := some lastDoc.id }
      | none => s1
    let s3 := { s2 with currentPage := s2.currentPage + 1 }
    let r := loadCurrentTab s3 o
    (r.1, some r.2)

/-- loadPreviousPage from browse-ui.js lines 398-408: nothing happens on page
one; otherwise the stack is popped (an undefined or falsy popped value becomes
null), the page counter decrements and the tab reloads. -/
def loadPreviousPage (s : EngineState) (o : QueryOutcome) : EngineState × Option QueryRequest :=
  if s.currentPage ≤ 1 then (s, none)
  else
    let s1 := { s with
                currentCursor := truthy (s.pageHistory.getLast?.getD none)
                pageHistory := s.pageHistory.dropLast
                currentPage := s.currentPage - 1 }
    let r := loadCurrentTab s1 o
    (r.1, some r.2)

/-- The navigation actions of the engine. -/
inductive Action
  | selectCollection (t : Tab)
  | search (raw : String)
  | clearSearch
  | nextPage
  | previousPage
deriving DecidableEq, Repr

/-- One engine transition: the action, applied to the current state, consuming
the outcome of the store query it issues (ignored when no query is issued). -/
def step (s : EngineState) (a : Action) (o : QueryOutcome) :
    EngineState × Option QueryRequest :=
  match a with
  | .selectCollection t => let r := switchTab s t o; (r.1, some r.2)
  | .search raw => let r := handleSearch s raw o; (r.1, some r.2)
  | .clearSearch => let r := clearSearch s o; (r.1, some r.2)
  | .nextPage => loadNextPage s o
  | .previousPage => loadPreviousPage s o

/-! ### The QueryState invariant (spec section 3) -/

/-- Records coming back from the store carry truthy identifiers. -/
def goodRecords (rs : List Rec) : Prop := ∀ r ∈ rs, r.id ≠ ""

instance (rs : List Rec) : Decidable (goodRecords rs) :=
  inferInstanceAs (Decidable (∀ r ∈ rs, r.id ≠ ""))

/-- The records delivered by an outcome (none on error). -/
def recsOf : QueryOutcome → List Rec
  | .ok records => records
  | .err => []

/-- An outcome is good when any records it carries have truthy identifiers. -/
def goodOutcome (o : QueryOutcome) : Prop := goodRecords (recsOf o)

instance (o : QueryOutcome) : Decidable (goodOutcome o) :=
  inferInstanceAs (Decidable (goodRecords (recsOf o)))

/-- Cursor-stack shape: the bottom entry is the null cursor of page one, every
later entry is a present, nonempty (truthy) cursor. -/
def stackOK (l : List (Option String)) : Prop :=
  (∀ x ∈ l.take 1, x = none) ∧ (∀ x ∈ l.drop 1, x ≠ none ∧ x ≠ some "")

instance (l : List (Option String)) : Decidable (stackOK l) :=
  inferInstanceAs (Decidable (_ ∧ _))

/-- The QueryState invariant: the stack holds one cursor per completed page,
the current cursor is null exactly on page one and is never the falsy empty
string, the stack is well shaped, and cached results have truthy ids. -/
def Inv (s : EngineState) : Prop :=
  s.pageHistory.length + 1 = s.currentPage ∧
  (s.currentPage = 1 ↔ s.currentCursor = none) ∧
  s.currentCursor ≠ some "" ∧
  stackOK s.pageHistory ∧
  goodRecords s.lastResults

instance (s : EngineState) : Decidable (Inv s) :=
  inferInstanceAs (Decidable (_ ∧ _))

/-! ### Sample data for witnesses and counterexamples -/

/-- A record with identifier dN. -/
def mkRec (n : Nat) : Rec := ⟨"d" ++ toString n⟩

/-- Twelve records, a full page at the configured page size. -/
def recs12 : List Rec := (List.range 12).map mkRec

/-- Five records, a short page. -/
def recs5 : List Rec := (List.range 5).map mkRec

/-- A first-page state whose last fetch returned a full page. -/
def sFull : EngineState :=
  { activeTab := .movie, currentPage := 1, pageHistory := [], currentCursor := none,
    lastResults := recs12, isSearchMode := false, searchQuery := "" }

/-- A first-page state whose last fetch returned a short page. -/
def sSmall : EngineState :=
  { activeTab := .movie, currentPage := 1, pageHistory := [], currentCursor := none,
    lastResults := recs5, isSearchMode := false, searchQuery := "" }

/-! ### Theorems for the claims -/

/-- C1: the base-58 round trip fails exactly where the claim includes the
empty and all-zero sequences.  Because base58Encode initialises its digit
accumulator to a single zero digit, the encoder renders the zero big-number
value as one extra character 1 beyond the leading-zero prefix: the empty
input encodes to the string 1, which decodes to one zero byte, and the single
zero byte encodes to 11, which decodes to two zero bytes.  A sequence with a
nonzero byte still round-trips, as the last conjunct shows on a sample. -/
theorem c1_base58_roundtrip_fails_on_zero_values :
    base58Encode [] = "1" ∧ base58Decode "1" = some [0] ∧
    base58Encode [0] = "11" ∧ base58Decode "11" = some [0, 0] ∧
    base58Decode (base58Encode [0, 1, 255]) = some [0, 1, 255] := by
  refine ⟨rfl, rfl, rfl, rfl, rfl⟩

/-- C3: parseMagnetLink percent-decodes the dn capture without a try/catch, so
a dn value that fails to decode makes the whole call throw (first conjunct,
modelled as none).  The graceful paths the claim describes do hold elsewhere:
a string with no magnet structure yields the all-empty result, a tr capture
that fails to decode is skipped individually, and a decodable dn is returned
with plus signs turned into spaces. -/
theorem c3_parseMagnetLink_dn_decode_throws :
    parseMagnetLink "magnet:?dn=%" = none ∧
    parseMagnetLink "not-a-magnet" = some ⟨none, none, ""⟩ ∧
    parseMagnetLink "x?tr=%zz&tr=udp%3A%2F%2Ft" = some ⟨none, none, "udp://t"⟩ ∧
    parseMagnetLink "x?dn=a+b" = some ⟨none, some "a b", ""⟩ := by
  refine ⟨rfl, rfl, rfl, rfl⟩

/-- C7 counterexample: the string xyz is neither a 20-byte array nor a
40-character hex string (isValidInfoHash rejects it), yet buildMagnetUri does
not fail on it: any string argument is lowercased and embedded unvalidated.
This refutes the claimed failure condition. -/
theorem c7_counterexample_string_never_rejected :
    isValidInfoHash (.str "xyz") = false ∧
    buildMagnetUri (.str "xyz") none "" = .ok "magnet:?xt=urn:btih:xyz" := by
  refine ⟨rfl, rfl⟩

/-- C10 counterexample: on the 40-character input starting with the pair 1z,
hexToBytes stores the byte 1, not 0, because parseInt with radix 16 parses the
longest valid prefix of the pair.  This refutes the parenthetical that every
invalid pair yields the byte 0. -/
theorem c10_counterexample_invalid_pair_not_zero :
    hexToBytes "1z00000000000000000000000000000000000000" =
      .ok (1 :: List.replicate 19 0) := by
  rfl

/-- C2 counterexample: in the first-page state sFull holding a full page, a
nextPage whose store query fails issues a query (second component is present)
and leaves the state mutated - page counter, cursor and stack keep the values
committed before the query - contradicting the claim that a failed query
leaves QueryState exactly as it was. -/
theorem c2_counterexample_failed_nextPage_mutates :
    (step sFull .nextPage .err).2 ≠ none ∧
    (step sFull .nextPage .err).1 ≠ sFull ∧
    (step sFull .nextPage .err).1.currentPage = 2 ∧ sFull.currentPage = 1 := by
  refine ⟨by decide, by decide, rfl, rfl⟩

/-- A cursor that is not the falsy empty string is fixed by truthiness. -/
theorem truthy_of_ne (c : Option String) (h : c ≠ some "") : truthy c = c := by
  cases c with
  | none => rfl
  | some s =>
    have hs : s ≠ "" := fun e => h (by rw [e])
    simp [truthy, hs]

/-- C2 amended: a failed store query skips only the lastResults update; every
state mutation the action committed before issuing the query (pagination
reset, filter install, page and cursor changes) persists.  Formally, the ok
and err outcomes of the same action issue the same query and produce the same
state except that the ok outcome stores the fetched records in lastResults;
when no query is issued the outcome is irrelevant. -/
theorem c2_failed_query_keeps_committed_mutations (s : EngineState) (a : Action)
    (records : List Rec) :
    (step s a (.ok records)).2 = (step s a .err).2 ∧
    ((step s a .err).2 = none → (step s a (.ok records)).1 = (step s a .err).1) ∧
    ((step s a .err).2 ≠ none →
      (step s a (.ok records)).1 = { (step s a .err).1 with lastResults := records }) := by
  cases a with
  | selectCollection t => simp [step, switchTab, loadCurrentTab, resetPagination]
  | search raw =>
    by_cases h : String.mk (trimChars raw.data) = "" <;>
      simp [step, handleSearch, clearSearch, loadCurrentTab, resetPagination, h]
  | clearSearch => simp [step, clearSearch, loadCurrentTab, resetPagination]
  | nextPage =>
    by_cases h : s.lastResults.length < pageSize
    · simp [step, loadNextPage, h]
    · cases hg : s.lastResults.getLast? <;>
        simp [step, loadNextPage, h, hg, loadCurrentTab]
  | previousPage =>
    by_cases h : s.currentPage ≤ 1 <;> simp [step, loadPreviousPage, h, loadCurrentTab]

/-- C2 witness: the amended theorem applied to the concrete full first page,
where the failing nextPage query has been issued. -/
theorem c2_failed_query_keeps_committed_mutations_witness :
    (step sFull .nextPage (.ok recs5)).1 =
      { (step sFull .nextPage .err).1 with lastResults := recs5 } :=
  (c2_failed_query_keeps_committed_mutations sFull .nextPage recs5).2.2 (by decide)

/-- C4: loadNextPage is a strict no-op (same state, no query) when the last
fetched page was shorter than the page size; otherwise it pushes the current
cursor, advances the cursor to the identifier of the last fetched record,
increments the page counter and issues exactly one query whose startAfter is
that identifier (whenever the identifier is truthy, as store records
guarantee). -/
theorem c4_nextPage_spec (s : EngineState) (o : QueryOutcome) :
    (s.lastResults.length < pageSize → step s .nextPage o = (s, none)) ∧
    (∀ r, pageSize ≤ s.lastResults.length → s.lastResults.getLast? = some r →
      1 ≤ s.currentPage →
      (step s .nextPage o).1.pageHistory = s.pageHistory ++ [s.currentCursor] ∧
      (step s .nextPage o).1.currentCursor = some r.id ∧
      (step s .nextPage o).1.currentPage = s.currentPage + 1 ∧
      ∃ req, (step s .nextPage o).2 = some req ∧
        req.collection = s.activeTab ∧ req.limit = pageSize ∧
        (r.id ≠ "" → req.startAfter = some r.id)) := by
  constructor
  · intro h
    simp [step, loadNextPage, h]
  · intro r hlen hg hpage
    have h : ¬ s.lastResults.length < pageSize := by omega
    have hreq : (step s .nextPage o).2 =
        some (queryRequestOf
          { s with pageHistory := s.pageHistory ++ [s.currentCursor],
                    currentCursor := some r.id, currentPage := s.currentPage + 1 }) := by
      cases o <;> simp [step, loadNextPage, h, hg, loadCurrentTab]
    refine ⟨by cases o <;> simp [step, loadNextPage, h, hg, loadCurrentTab],
      by cases o <;> simp [step, loadNextPage, h, hg, loadCurrentTab],
      by cases o <;> simp [step, loadNextPage, h, hg, loadCurrentTab],
      _, hreq, rfl, rfl, ?_⟩
    intro hid
    have h1 : 1 < s.currentPage + 1 := by omega
    simp [queryRequestOf, h1, truthy, hid]

/-- C4 witness: on the short page the action is a no-op; on the full page the
query carries startAfter d11, the identifier of the twelfth record. -/
theorem c4_nextPage_spec_witness :
    step sSmall .nextPage .err = (sSmall, none) ∧
    (step sFull .nextPage .err).1.currentPage = 2 ∧
    ∃ req, (step sFull .nextPage .err).2 = some req ∧ req.startAfter = some (mkRec 11).id := by
  refine ⟨(c4_nextPage_spec sSmall .err).1 (by decide), ?_, ?_⟩
  · exact ((c4_nextPage_spec sFull .err).2 (mkRec 11) (by decide) (by decide) (by decide)).2.2.1
  · obtain ⟨req, h1, _, _, h4⟩ :=
      ((c4_nextPage_spec sFull .err).2 (mkRec 11) (by decide) (by decide) (by decide)).2.2.2
    exact ⟨req, h1, h4 (by decide)⟩

/-- C6: loadPreviousPage is a no-op on page one; past page one it pops the
cursor stack into the cursor slot and decrements the page counter; and
immediately after a nextPage from a state with a well-formed cursor it
restores the page number, cursor, stack, tab and filter, so the query it
issues is exactly the query of the original state. -/
theorem c6_previousPage_spec (s : EngineState) (o : QueryOutcome) :
    (s.currentPage ≤ 1 → step s .previousPage o = (s, none)) ∧
    (1 < s.currentPage →
      (step s .previousPage o).1.pageHistory = s.pageHistory.dropLast ∧
      (step s .previousPage o).1.currentPage = s.currentPage - 1 ∧
      (step s .previousPage o).1.currentCursor = truthy (s.pageHistory.getLast?.getD none)) ∧
    (∀ o1, pageSize ≤ s.lastResults.length → 1 ≤ s.currentPage →
      s.currentCursor ≠ some "" →
      (step (step s .nextPage o1).1 .previousPage o).2 = some (queryRequestOf s) ∧
      (step (step s .nextPage o1).1 .previousPage o).1.currentPage = s.currentPage ∧
      (step (step s .nextPage o1).1 .previousPage o).1.currentCursor = s.currentCursor ∧
      (step (step s .nextPage o1).1 .previousPage o).1.pageHistory = s.pageHistory ∧
      (step (step s .nextPage o1).1 .previousPage o).1.activeTab = s.activeTab ∧
      (step (step s .nextPage o1).1 .previousPage o).1.isSearchMode = s.isSearchMode ∧
      (step (step s .nextPage o1).1 .previousPage o).1.searchQuery = s.searchQuery) := by
  refine ⟨?_, ?_, ?_⟩
  · intro h
    simp [step, loadPreviousPage, h]
  · intro h
    have h2 : ¬ s.currentPage ≤ 1 := by omega
    cases o <;> simp [step, loadPreviousPage, h2, loadCurrentTab]
  · intro o1 hlen hpage hcur
    have h : ¬ s.lastResults.length < pageSize := by omega
    have hne : s.lastResults ≠ [] := by
      intro e
      rw [e] at hlen
      simp [pageSize] at hlen
    obtain ⟨r, hg⟩ : ∃ r, s.lastResults.getLast? = some r := by
      cases hgl : s.lastResults.getLast? with
      | none => exact absurd (List.getLast?_eq_none_iff.mp hgl) hne
      | some r => exact ⟨r, rfl⟩
    have hgt : ¬ s.currentPage + 1 ≤ 1 := by omega
    cases o1 <;> cases o <;>
      simp [step, loadNextPage, h, hg, loadCurrentTab, loadPreviousPage, hgt,
        queryRequestOf, List.getLast?_concat, List.dropLast_concat, truthy_of_ne _ hcur]

/-- C6 witness: the no-op on page one and the full round trip from the sample
full first page. -/
theorem c6_previousPage_spec_witness :
    step sSmall .previousPage .err = (sSmall, none) ∧
    (step (step sFull .nextPage (.ok recs12)).1 .previousPage .err).2 =
      some (queryRequestOf sFull) := by
  refine ⟨(c6_previousPage_spec sSmall .err).1 (by decide), ?_⟩
  exact (((c6_previousPage_spec sFull .err).2.2 (.ok recs12) (by decide) (by decide)
    (by decide))).1

/-- Pushing onto a well-shaped cursor stack: the empty stack accepts only the
null cursor, a nonempty stack accepts only truthy cursors. -/
theorem stackOK_append (l : List (Option String)) (c : Option String) (h : stackOK l)
    (hnil : l = [] → c = none) (hcons : l ≠ [] → c ≠ none ∧ c ≠ some "") :
    stackOK (l ++ [c]) := by
  cases l with
  | nil => simpa [stackOK] using hnil rfl
  | cons d rest =>
    obtain ⟨h1, h2⟩ := h
    refine ⟨by simpa using h1, ?_⟩
    intro x hx
    simp only [List.cons_append, List.drop_succ_cons, List.drop_zero] at hx
    rcases List.mem_append.mp hx with hx1 | hx1
    · exact h2 x (by simpa using hx1)
    · have := hcons (by simp)
      simp only [List.mem_singleton] at hx1
      exact hx1 ▸ this

/-- Popping preserves the cursor-stack shape. -/
theorem stackOK_dropLast (l : List (Option String)) (h : stackOK l) :
    stackOK l.dropLast := by
  cases l with
  | nil => exact h
  | cons d rest =>
    cases rest with
    | nil => simp [stackOK]
    | cons e rest2 =>
      obtain ⟨h1, h2⟩ := h
      rw [List.dropLast_cons₂]
      refine ⟨by simpa using h1, ?_⟩
      intro x hx
      simp only [List.drop_succ_cons, List.drop_zero] at hx ⊢
      exact h2 x (by simpa using List.dropLast_subset _ hx)

/-- C5: the QueryState invariant - the cursor stack holds exactly one entry
per completed page, so its length is the page number minus one, and the
current cursor is null exactly on page one - holds in the initial state and is
preserved by every engine action, for store outcomes whose records carry
truthy identifiers; moreover past the no-op guard, nextPage installs as
cursor precisely the identifier of the last record of the page just fetched. -/
theorem c5_querystate_invariant (s : EngineState) (a : Action) (o : QueryOutcome) :
    (∀ t, Inv (initState t)) ∧
    (Inv s → goodOutcome o → Inv (step s a o).1) ∧
    (Inv s → s.pageHistory.length = s.currentPage - 1 ∧
      (s.currentCursor = none ↔ s.currentPage = 1)) ∧
    (pageSize ≤ s.lastResults.length → ∀ r, s.lastResults.getLast? = some r →
      (step s .nextPage o).1.currentCursor = some r.id) := by
  refine ⟨?_, ?_, ?_, ?_⟩
  · intro t
    simp [Inv, initState, stackOK, goodRecords]
  · intro hInv hGood
    obtain ⟨hlen, hiff, hcurOK, hstack, hgood⟩ := hInv
    have hGood' : goodRecords (recsOf o) := hGood
    have hreset : ∀ (t : Tab) (q : String) (m : Bool), Inv
        { activeTab := t, currentPage := 1, pageHistory := [], currentCursor := none,
          lastResults := recsOf o, isSearchMode := m, searchQuery := q } := by
      intro t q m
      exact ⟨rfl, by simp, by simp, by simp [stackOK], hGood'⟩
    cases a with
    | selectCollection t =>
      cases o <;>
        simpa [step, switchTab, loadCurrentTab, resetPagination, recsOf] using
          hreset t s.searchQuery false
    | search raw =>
      by_cases he : String.mk (trimChars raw.data) = ""
      · cases o <;>
          simpa [step, handleSearch, clearSearch, he, loadCurrentTab, resetPagination,
            recsOf] using hreset s.activeTab "" false
      · cases o <;>
          simpa [step, handleSearch, he, loadCurrentTab, resetPagination, recsOf] using
            hreset s.activeTab (String.mk (trimChars raw.data)) true
    | clearSearch =>
      cases o <;>
        simpa [step, clearSearch, loadCurrentTab, resetPagination, recsOf] using
          hreset s.activeTab "" false
    | nextPage =>
      by_cases hlt : s.lastResults.length < pageSize
      · simpa [step, loadNextPage, hlt] using ⟨hlen, hiff, hcurOK, hstack, hgood⟩
      · have hne : s.lastResults ≠ [] := by
          intro e
          rw [e] at hlt
          simp [pageSize] at hlt
        obtain ⟨r, hg⟩ : ∃ r, s.lastResults.getLast? = some r := by
          cases hgl : s.lastResults.getLast? with
          | none => exact absurd (List.getLast?_eq_none_iff.mp hgl) hne
          | some r => exact ⟨r, rfl⟩
        have hrid : r.id ≠ "" :=
          hgood r (List.mem_of_mem_getLast? (show r ∈ s.lastResults.getLast? from hg))
        have hpush : stackOK (s.pageHistory ++ [s.currentCursor]) := by
          refine stackOK_append _ _ hstack ?_ ?_
          · intro he
            refine hiff.mp ?_
            rw [he] at hlen
            simpa using hlen.symm
          · intro he
            have hlen2 : 1 ≤ s.pageHistory.length := by
              cases hpl : s.pageHistory with
              | nil => exact absurd hpl he
              | cons x xs => simp
            have hp2 : s.currentPage ≠ 1 := by omega
            have hcne : s.currentCursor ≠ none := fun e => hp2 (hiff.mpr e)
            exact ⟨hcne, hcurOK⟩
        have hp1 : ¬ s.currentPage + 1 = 1 := by omega
        cases o with
        | ok records =>
          refine ⟨?_, ?_, ?_, ?_, ?_⟩ <;>
            simp [step, loadNextPage, hlt, hg, loadCurrentTab, hp1, hrid, hpush]
          · omega
          · simpa [recsOf, goodRecords] using hGood'
        | err =>
          refine ⟨?_, ?_, ?_, ?_, ?_⟩ <;>
            simp [step, loadNextPage, hlt, hg, loadCurrentTab, hp1, hrid, hpush]
          · omega
          · simpa [goodRecords] using hgood
    | previousPage =>
      by_cases hle : s.currentPage ≤ 1
      · simpa [step, loadPreviousPage, hle] using ⟨hlen, hiff, hcurOK, hstack, hgood⟩
      · have hplen : 1 ≤ s.pageHistory.length := by omega
        cases hph : s.pageHistory with
        | nil => rw [hph] at hplen; simp at hplen
        | cons d rest =>
          have hd : d = none := by
            have := hstack.1
            rw [hph] at this
            simpa using this d
          cases hrest : rest with
          | nil =>
            have hp2 : s.currentPage = 2 := by
              rw [hph, hrest] at hlen
              simpa using hlen.symm
            have hpop : (s.pageHistory.getLast?.getD none) = none := by
              rw [hph, hrest, hd]
              rfl
            have hdrop : s.pageHistory.dropLast = [] := by
              rw [hph, hrest]
              rfl
            cases o <;>
              refine ⟨?_, ?_, ?_, ?_, ?_⟩ <;>
                simp [step, loadPreviousPage, hle, loadCurrentTab, hpop, hdrop, truthy,
                  hp2, stackOK] <;>
              first
                | simpa [recsOf, goodRecords] using hGood'
                | simpa [goodRecords] using hgood
          | cons e rest2 =>
            have hlen2 : 2 ≤ s.pageHistory.length := by
              rw [hph, hrest]
              simp
            obtain ⟨x, hx⟩ : ∃ x, (e :: rest2).getLast? = some x := by
              cases hgl : (e :: rest2).getLast? with
              | none => exact absurd (List.getLast?_eq_none_iff.mp hgl) (by simp)
              | some x => exact ⟨x, rfl⟩
            have hxmem : x ∈ e :: rest2 :=
              List.mem_of_mem_getLast? (show x ∈ (e :: rest2).getLast? from hx)
            have hxcond : x ≠ none ∧ x ≠ some "" := by
              have := hstack.2
              rw [hph, hrest] at this
              exact this x (by simpa using hxmem)
            obtain ⟨str, hstr⟩ : ∃ str, x = some str := by
              cases x with
              | none => exact absurd rfl hxcond.1
              | some str => exact ⟨str, rfl⟩
            have hpop : (s.pageHistory.getLast?.getD none) = some str := by
              rw [hph, hrest, List.getLast?_cons_cons, hx, hstr]
              rfl
            have hstrne : str ≠ "" := by
              intro e2
              exact hxcond.2 (by rw [hstr, e2])
            have htr : truthy (some str) = some str := by simp [truthy, hstrne]
            have hpagene : ¬ s.currentPage - 1 = 1 := by
              rw [hph, hrest] at hlen
              simp at hlen
              omega
            have hdropOK : stackOK (s.pageHistory.dropLast) := stackOK_dropLast _ hstack
            cases o <;>
              refine ⟨?_, ?_, ?_, ?_, ?_⟩ <;>
                simp [step, loadPreviousPage, hle, loadCurrentTab, hpop, htr, hpagene,
                  hstrne, hdropOK] <;>
              first
                | omega
                | simpa [recsOf, goodRecords] using hGood'
                | simpa [goodRecords] using hgood
  · intro hInv
    obtain ⟨hlen, hiff, _, _, _⟩ := hInv
    exact ⟨by omega, hiff.symm⟩
  · intro hlenge r hg
    have h : ¬ s.lastResults.length < pageSize := by omega
    cases o <;> simp [step, loadNextPage, h, hg, loadCurrentTab]

/-- C5 witness: the invariant preservation applied to the concrete full first
page taking nextPage with a successful fetch. -/
theorem c5_querystate_invariant_witness :
    Inv (step sFull .nextPage (.ok recs12)).1 ∧
    sFull.pageHistory.length = sFull.currentPage - 1 :=
  ⟨(c5_querystate_invariant sFull .nextPage (.ok recs12)).2.1 (by decide) (by decide),
   ((c5_querystate_invariant sFull .nextPage (.ok recs12)).2.2.1 (by decide)).1⟩

/-- C8: on the numeric-identifier collections the search input is normalized
through the typed-identifier parser into an equality filter on the designated
search field, on the free-text collections the raw query becomes a
starts-with filter; in particular the input tt0133093 on the IMDB-indexed
movie collection issues a query whose filter is (imdbId, ==, 133093). -/
theorem c8_search_filter_normalization :
    (∀ q n, parseImdbId q = some n →
      buildWhereClause .movie q = some ⟨"imdbId", .eq, .num n⟩) ∧
    (∀ q n, parseImdbId q = some n →
      buildWhereClause .tv q = some ⟨"seriesImdbId", .eq, .num n⟩) ∧
    (∀ q n, parseWorkId q = some n →
      buildWhereClause .book q = some ⟨"workId", .eq, .num n⟩) ∧
    (∀ q, buildWhereClause .iso q = some ⟨"title", .startsWith, .str q⟩) ∧
    (∀ q, buildWhereClause .other q = some ⟨"title", .startsWith, .str q⟩) ∧
    buildWhereClause .movie "tt0133093" = some ⟨"imdbId", .eq, .num 133093⟩ ∧
    (∀ (s : EngineState) (o : QueryOutcome), s.activeTab = .movie →
      (step s (.search "tt0133093") o).2 =
        some ⟨.movie, pageSize, "imdbId", some ⟨"imdbId", .eq, .num 133093⟩, none⟩) := by
  have htt : parseImdbId "tt0133093" = some 133093 := by decide
  refine ⟨?_, ?_, ?_, ?_, ?_, ?_, ?_⟩
  · intro q n h
    simp [buildWhereClause, TAB_CONFIG, h]
  · intro q n h
    simp [buildWhereClause, TAB_CONFIG, h]
  · intro q n h
    simp [buildWhereClause, TAB_CONFIG, h]
  · intro q
    simp [buildWhereClause, TAB_CONFIG]
  · intro q
    simp [buildWhereClause, TAB_CONFIG]
  · simp [buildWhereClause, TAB_CONFIG, htt]
  · intro s o htab
    have htrim : String.mk (trimChars "tt0133093".data) = "tt0133093" := rfl
    have hne : ¬ String.mk (trimChars "tt0133093".data) = "" := by decide
    cases o <;>
      simp [step, handleSearch, htrim, hne, loadCurrentTab, resetPagination,
        queryRequestOf, htab, TAB_CONFIG, buildWhereClause, htt]

/-- C8 witness: the normalization theorem applied to the concrete matrix
identifier, both at the filter level and through a search action. -/
theorem c8_search_filter_normalization_witness :
    buildWhereClause .movie "tt0133093" = some ⟨"imdbId", .eq, .num 133093⟩ ∧
    (step sFull (.search "tt0133093") .err).2 =
      some ⟨.movie, pageSize, "imdbId", some ⟨"imdbId", .eq, .num 133093⟩, none⟩ :=
  ⟨c8_search_filter_normalization.1 "tt0133093" 133093 (by decide),
   c8_search_filter_normalization.2.2.2.2.2.2 sFull .err (by decide)⟩

set_option maxRecDepth 4000 in
/-- Each byte below 256 survives the hex pair round trip of the two
conversions. -/
theorem byteToHexChars_roundtrip :
    ∀ b < 256, toUint8 (parseIntJS true (byteToHexChars b)) = b := by decide

/-- The hex rendering of a byte list has twice its length. -/
theorem flatten_byteToHexChars_length (h : List Nat) :
    ((h.map byteToHexChars).flatten).length = 2 * h.length := by
  induction h with
  | nil => rfl
  | cons b t ih =>
    simp only [List.map_cons, List.flatten_cons, List.length_append, ih, byteToHexChars,
      List.length_cons, List.length_nil, List.length_map]
    omega

/-- Pair-wise parsing inverts the hex rendering on byte lists. -/
theorem hexPairsToBytes_flatten :
    ∀ h : List Nat, (∀ b ∈ h, b < 256) →
      hexPairsToBytes ((h.map byteToHexChars).flatten) = h
  | [], _ => rfl
  | b :: t, hb => by
    have hbb : b < 256 := hb b (by simp)
    have ht : ∀ x ∈ t, x < 256 := fun x hx => hb x (by simp [hx])
    have hkey := byteToHexChars_roundtrip b hbb
    simp only [List.map_cons, List.flatten_cons, byteToHexChars, List.cons_append,
      List.nil_append]
    rw [hexPairsToBytes]
    rw [hexPairsToBytes_flatten t ht]
    simp only [byteToHexChars] at hkey
    rw [hkey]

/-- The length of the pair-wise conversion is half the character count. -/
theorem hexPairsToBytes_length :
    ∀ cs : List Char, (hexPairsToBytes cs).length = cs.length / 2
  | [] => rfl
  | [_] => by simp [hexPairsToBytes]
  | c1 :: c2 :: rest => by
    simp only [hexPairsToBytes, List.length_cons]
    rw [hexPairsToBytes_length rest]
    omega

/-- Every stored Uint8Array cell is a byte. -/
theorem toUint8_lt (x : Option Int) : toUint8 x < 256 := by
  cases x with
  | none => simp [toUint8]
  | some v =>
    simp only [toUint8]
    have h1 : 0 ≤ v % 256 := Int.emod_nonneg v (by decide)
    have h2 : v % 256 < 256 := Int.emod_lt_of_pos v (by decide)
    omega

/-- All outputs of the pair-wise conversion are bytes. -/
theorem hexPairsToBytes_mem_lt :
    ∀ cs : List Char, ∀ b ∈ hexPairsToBytes cs, b < 256
  | [] => by simp [hexPairsToBytes]
  | [c] => by simp [hexPairsToBytes]
  | c1 :: c2 :: rest => by
    intro b hb
    rw [hexPairsToBytes] at hb
    rcases List.mem_cons.mp hb with hb1 | hb1
    · rw [hb1]
      exact toUint8_lt _
    · exact hexPairsToBytes_mem_lt rest b hb1

/-- C9: for every 20-byte array the hex rendering inverts exactly, and both
conversions are strict about length - bytesToHex rejects any list that is not
exactly 20 bytes and hexToBytes rejects any string that is not exactly 40
characters. -/
theorem c9_hex_roundtrip :
    (∀ h : List Nat, h.length = 20 → (∀ b ∈ h, b < 256) →
      ∃ s, bytesToHex h = .ok s ∧ hexToBytes s = .ok h) ∧
    (∀ h : List Nat, h.length ≠ 20 →
      bytesToHex h = .error "Invalid bytes array: must be 20 bytes") ∧
    (∀ s : String, s.length ≠ 40 →
      hexToBytes s = .error "Invalid hex string: must be 40 characters") := by
  refine ⟨?_, ?_, ?_⟩
  · intro h hlen hb
    refine ⟨String.mk ((h.map byteToHexChars).flatten), by simp [bytesToHex, hlen], ?_⟩
    have hl : (String.mk ((h.map byteToHexChars).flatten)).length = 40 := by
      show ((h.map byteToHexChars).flatten).length = 40
      rw [flatten_byteToHexChars_length, hlen]
    rw [hexToBytes, if_neg (by rw [hl]; exact fun e => e rfl)]
    show Except.ok (hexPairsToBytes ((h.map byteToHexChars).flatten)) = _
    rw [hexPairsToBytes_flatten h hb]
  · intro h hlen
    simp [bytesToHex, hlen]
  · intro s hlen
    simp [hexToBytes, hlen]

/-- C9 witness: the round trip on a concrete 20-byte array and both length
rejections on concrete wrong-size inputs. -/
theorem c9_hex_roundtrip_witness :
    (∃ s, bytesToHex (List.replicate 20 171) = .ok s ∧
      hexToBytes s = .ok (List.replicate 20 171)) ∧
    bytesToHex [1, 2, 3] = .error "Invalid bytes array: must be 20 bytes" ∧
    hexToBytes "abc" = .error "Invalid hex string: must be 40 characters" :=
  ⟨c9_hex_roundtrip.1 (List.replicate 20 171) (by decide) (by decide),
   c9_hex_roundtrip.2.1 [1, 2, 3] (by decide),
   c9_hex_roundtrip.2.2 "abc" (by decide)⟩

/-- C10 amended: hexToBytes really does validate only the length - every
40-character string, whatever its characters, produces Ok with a 20-byte
array - but an invalid pair does not always store 0: each pair goes through
parseInt radix 16, so a pair with no parseable hex prefix stores 0 while a
pair such as 1z stores the value of its parsed prefix. -/
theorem c10_hexToBytes_validates_only_length (s : String) (h : s.length = 40) :
    ∃ l, hexToBytes s = .ok l ∧ l.length = 20 ∧ ∀ b ∈ l, b < 256 := by
  refine ⟨hexPairsToBytes s.data, by simp [hexToBytes, h], ?_, hexPairsToBytes_mem_lt s.data⟩
  rw [hexPairsToBytes_length]
  have hd : s.data.length = 40 := h
  omega

/-- C10 witness: a 40-character string of punctuation decodes without error
into 20 bytes. -/
theorem c10_hexToBytes_validates_only_length_witness :
    ∃ l, hexToBytes "zz!!@@##$$%%^^&&**((__++--==~~..,,<<>>??" = .ok l ∧
      l.length = 20 ∧ ∀ b ∈ l, b < 256 :=
  c10_hexToBytes_validates_only_length _ (by decide)

/-- C7 amended: buildMagnetUri fails only for an argument that is neither a
byte array nor a string (the type error) or for a byte array whose length is
not 20 (the bytesToHex length error); every string is accepted, lowercased
and embedded without hex validation, and accepted inputs produce the magnet
URI with the optional percent-encoded dn parameter and one percent-encoded tr
parameter per nonempty trimmed tracker in stored order, as the closing
concrete emission shows. -/
theorem c7_buildMagnetUri_behaviour (dn : Option String) (tr : String) :
    buildMagnetUri .other dn tr = .error "Invalid infoHash type" ∧
    (∀ b : List Nat, b.length ≠ 20 →
      buildMagnetUri (.bytes b) dn tr = .error "Invalid bytes array: must be 20 bytes") ∧
    (∀ b : List Nat, b.length = 20 → ∃ out, buildMagnetUri (.bytes b) dn tr = .ok out) ∧
    (∀ s : String, ∃ out, buildMagnetUri (.str s) dn tr = .ok out) ∧
    buildMagnetUri (.str "ABCDEF") (some "My File") "udp://t1\n udp://t2 \n" =
      .ok "magnet:?xt=urn:btih:abcdef&dn=My%20File&tr=udp%3A%2F%2Ft1&tr=udp%3A%2F%2Ft2" := by
  refine ⟨rfl, ?_, ?_, fun s => ⟨_, rfl⟩, rfl⟩
  · intro b hb
    simp [buildMagnetUri, bytesToHex, hb, Except.map]
  · intro b hb
    refine ⟨magnetAssemble (String.mk ((b.map byteToHexChars).flatten)) dn tr, ?_⟩
    simp [buildMagnetUri, bytesToHex, hb, Except.map]

/-- C7 amended witness: a wrong-length byte array is rejected with the length
error while a 20-byte array is accepted. -/
theorem c7_buildMagnetUri_behaviour_witness :
    buildMagnetUri (.bytes [1, 2, 3]) none "" =
      .error "Invalid bytes array: must be 20 bytes" ∧
    ∃ out, buildMagnetUri (.bytes (List.replicate 20 0)) none "" = .ok out :=
  ⟨(c7_buildMagnetUri_behaviour none "").2.1 [1, 2, 3] (by decide),
   (c7_buildMagnetUri_behaviour none "").2.2.1 (List.replicate 20 0) (by decide)⟩

end TorrentSearch
